import Mathlib

/-!
Verification development for the alx_travel_app listings core: the entity
schema (`listings/models.py`), the representation mapper
(`listings/serializers.py`) and the sample-data generator
(`listings/management/commands/seed.py`).

The database is embedded as explicit state (lists of rows plus a fresh-id
counter).  Python's global `random` module is embedded as an oracle
structure `Rng` supplying one draw per call site; `random.choice(xs)` is
`choose xs d n = xs[n % len(xs)]` and `random.randint(a, b)` is
`a + n % (b + 1 - a)`, so every draw lands in the source's range whatever
the oracle returns.  Decimal fields are embedded as exact rationals and
dates/datetimes as integer day numbers.
-/

/-- A row of the user table.  The custom user model itself is not part of
the listings app sources; its fields are the ones read or written by
`seed.py` and `serializers.py` (`id`, `username`, `email`, `password`,
`first_name`, `last_name`, `role`, `is_superuser`). -/
structure User where
  id : Nat
  username : String
  email : String
  password : String
  first_name : String
  last_name : String
  role : String
  is_superuser : Bool
deriving DecidableEq, Repr

/-- A row of the `listings` table (`Listing` in `models.py`).  `host` holds
the id of the owning user; `price_per_night` is the decimal embedded as a
rational; `created_at`/`updated_at` are the server-assigned timestamps. -/
structure Listing where
  listing_id : Nat
  host : Nat
  title : String
  description : String
  address : String
  city : String
  country : String
  price_per_night : ℚ
  property_type : String
  num_bedrooms : Nat
  num_bathrooms : Nat
  max_guests : Nat
  amenities : String
  created_at : Int
  updated_at : Int
deriving DecidableEq, Repr

/-- A row of the `bookings` table (`Booking` in `models.py`).  `property`
holds the id of the booked listing, `user` the id of the booking user. -/
structure Booking where
  booking_id : Nat
  property : Nat
  user : Nat
  check_in_date : Int
  check_out_date : Int
  total_price : ℚ
  status : String
  booked_at : Int
deriving DecidableEq, Repr

/-- A row of the `reviews` table (`Review` in `models.py`). -/
structure Review where
  review_id : Nat
  property : Nat
  user : Nat
  rating : Nat
  comment : String
  created_at : Int
deriving DecidableEq, Repr

/-- The database state: one list of rows per table plus a fresh-id source
standing for the primary keys (UUIDs / auto ids) the engine generates. -/
structure DB where
  users : List User
  listings : List Listing
  bookings : List Booking
  reviews : List Review
  nextId : Nat
deriving DecidableEq, Repr

def emptyDB : DB := { users := [], listings := [], bookings := [], reviews := [], nextId := 0 }

def User.dummy : User :=
  { id := 0, username := "", email := "", password := "", first_name := "", last_name := "",
    role := "", is_superuser := false }

def Listing.dummy : Listing :=
  { listing_id := 0, host := 0, title := "", description := "", address := "", city := "",
    country := "", price_per_night := 0, property_type := "", num_bedrooms := 0,
    num_bathrooms := 0, max_guests := 0, amenities := "", created_at := 0, updated_at := 0 }

/-- `random.choice(xs)` under the oracle draw `n`. -/
def choose (xs : List α) (d : α) (n : Nat) : α := xs.getD (n % xs.length) d

/-- `random.randint(a, b)` (inclusive bounds) under the oracle draw `n`. -/
def randint (a b n : Nat) : Nat := a + n % (b + 1 - a)

/-- Oracle for the global `random` state of `seed.py`: one stream per call
site, indexed by the user index `i`, the running listing count `k`, and the
per-listing loop index `i`.  `lprice` stands for `random.uniform(50, 500)`
whose float result is embedded as an oracle-supplied rational. -/
structure Rng where
  role : Nat → Nat
  ltitle : Nat → Nat
  ldesc1 : Nat → Nat
  ldesc2 : Nat → Nat
  laddr : Nat → Nat
  lcity : Nat → Nat
  lcountry : Nat → Nat
  lprice : Nat → ℚ
  ltype : Nat → Nat
  lbed : Nat → Nat
  lbath : Nat → Nat
  lguests : Nat → Nat
  lamen : Nat → Nat
  bguest : Nat → Nat → Nat
  bcheckin : Nat → Nat → Nat
  bstay : Nat → Nat → Nat
  bstatus : Nat → Nat → Nat
  rguest : Nat → Nat → Nat
  rrating : Nat → Nat → Nat
  rcomment : Nat → Nat → Nat

/-- The command-line options of the seed command with their defaults. -/
structure Opts where
  clear : Bool
  num_users : Nat
  num_listings_per_host : Nat
  num_bookings_per_listing : Nat
  num_reviews_per_listing : Nat

/-- `PROPERTY_TYPE_CHOICES` from `models.py`. -/
def PROPERTY_TYPE_CHOICES : List (String × String) :=
  [("room", "Room"), ("mansion", "Mansion"), ("countryside", "Countryside"),
   ("cabin", "Cabin"), ("apartment", "Apartment"), ("villa", "Villa")]

/-- `STATUS_CHOICES` from `models.py`. -/
def STATUS_CHOICES : List (String × String) :=
  [("pending", "Pending"), ("confirmed", "Confirmed"), ("canceled", "Canceled")]

/-- `Review.objects.all().delete()` of the clear phase. -/
def deleteAllReviews (db : DB) : DB := { db with reviews := [] }

/-- `Booking.objects.all().delete()` of the clear phase. -/
def deleteAllBookings (db : DB) : DB := { db with bookings := [] }

/-- `Listing.objects.all().delete()` of the clear phase. -/
def deleteAllListings (db : DB) : DB := { db with listings := [] }

/-- `User.objects.filter(is_superuser=False).delete()` of the clear phase:
only the non-superusers are deleted. -/
def deleteNonSuperusers (db : DB) : DB := { db with users := db.users.filter (fun u => u.is_superuser) }

/-- The clear phase of `handle` (lines 62-68 of `seed.py`): reviews, then
bookings, then listings, then non-superuser users, in that order. -/
def clearData (db : DB) : DB :=
  deleteNonSuperusers (deleteAllListings (deleteAllBookings (deleteAllReviews db)))

/-- `User.objects.create_user(...)`.  Modelled from the spec: the custom
user model is not among the listings app sources; per the spec's user
entity provider it inserts a fresh row carrying the given attributes (a
created sample user is never a superuser). -/
def create_user (db : DB) (username email password first_name last_name role : String) :
    DB × User :=
  let u : User := { id := db.nextId, username := username, email := email, password := password,
                    first_name := first_name, last_name := last_name, role := role,
                    is_superuser := false }
  ({ db with users := db.users ++ [u], nextId := db.nextId + 1 }, u)

/-- The role draw `random.choice(['guest', 'host'])` for user `i`. -/
def chooseRole (rng : Rng) (i : Nat) : String := choose ["guest", "host"] "" (rng.role i)

/-- One iteration of the user-creation loop (lines 78-93 of `seed.py`):
if no user with the derived email exists, create one with a random role;
otherwise reuse the existing user. -/
def seedUsersGo (rng : Rng) : List Nat → DB → List User → List String → DB × List User × List String
  | [], db, users, log => (db, users, log)
  | i :: rest, db, users, log =>
    let email := "user" ++ toString i ++ "@example.com"
    if db.users.any (fun u => u.email == email) then
      let u := (db.users.find? (fun u => u.email == email)).getD User.dummy
      seedUsersGo rng rest db (users ++ [u])
        (log ++ ["User " ++ email ++ " already exists, skipping creation."])
    else
      let p := create_user db ("user" ++ toString i) email "password123"
        ("First" ++ toString i) ("Last" ++ toString i) (chooseRole rng i)
      let u := p.2
      let e := u.email
      let r := u.role
      seedUsersGo rng rest p.1 (users ++ [u])
        (log ++ ["Created user: " ++ e ++ " (" ++ r ++ ")"])

/-- The user-creation loop of `handle`, over `range(num_users)`. -/
def seedUsers (rng : Rng) (n : Nat) (db : DB) : DB × List User × List String :=
  seedUsersGo rng (List.range n) db [] ["Creating " ++ toString n ++ " sample users..."]

/-- Lines 98-109 of `seed.py`: if the role partition produced no hosts,
create the fallback host `auto_host` and append it to both lists. -/
def ensureHost (db : DB) (users hosts : List User) :
    DB × List User × List User × List String :=
  if hosts.isEmpty then
    let p := create_user db "auto_host" "auto_host@example.com" "password123" "Auto" "Host" "host"
    (p.1, users ++ [p.2], hosts ++ [p.2],
     ["No hosts created. Creating at least one host for listings."])
  else
    (db, users, hosts, [])

/-- The apostrophe character, used by the generated listing titles. -/
def apos : String := Char.toString (Char.ofNat 39)

/-- The listing built by one iteration of the listing loop (lines 116-129
of `seed.py`); `k` is the running count of listings created by this run and
indexes the oracle, `id` is the fresh primary key. -/
def mkListing (rng : Rng) (k : Nat) (host : User) (i : Nat) (today : Int) (id : Nat) : Listing :=
  { listing_id := id,
    host := host.id,
    title := host.first_name ++ apos ++ "s " ++
      choose ["Cozy Room", "Spacious Mansion", "Rustic Cabin"] "" (rng.ltitle k) ++
      " " ++ toString (i + 1),
    description := "A beautiful " ++ choose ["place", "villa", "apartment"] "" (rng.ldesc1 k) ++
      " in " ++ choose ["New York", "London", "Paris", "Tokyo", "Sydney"] "" (rng.ldesc2 k) ++ ".",
    address := toString (randint 1 100 (rng.laddr k)) ++ " Main St",
    city := choose ["New York", "London", "Paris", "Tokyo", "Sydney"] "" (rng.lcity k),
    country := choose ["USA", "UK", "France", "Japan", "Australia"] "" (rng.lcountry k),
    price_per_night := rng.lprice k,
    property_type := choose (PROPERTY_TYPE_CHOICES.map Prod.fst) "" (rng.ltype k),
    num_bedrooms := randint 1 5 (rng.lbed k),
    num_bathrooms := randint 1 3 (rng.lbath k),
    max_guests := randint 1 10 (rng.lguests k),
    amenities := choose ["WiFi, Pool", "Gym, Kitchen", "Parking, Balcony", "Pet-Friendly"] ""
      (rng.lamen k),
    created_at := today,
    updated_at := today }

/-- The inner listing loop for one host (`for i in range(num_listings_per_host)`). -/
def listingsForHost (rng : Rng) (host : User) (today : Int) :
    List Nat → DB × List Listing × List String → DB × List Listing × List String
  | [], st => st
  | i :: rest, st =>
    let db := st.1
    let listings := st.2.1
    let log := st.2.2
    let k := listings.length
    let l := mkListing rng k host i today db.nextId
    let t := l.title
    let e := host.email
    listingsForHost rng host today rest
      ({ db with listings := db.listings ++ [l], nextId := db.nextId + 1 },
       listings ++ [l],
       log ++ ["Created listing: " ++ t ++ " by " ++ e])

/-- The outer listing loop over the hosts (lines 114-131 of `seed.py`). -/
def seedListingsGo (rng : Rng) (per : Nat) (today : Int) :
    List User → DB × List Listing × List String → DB × List Listing × List String
  | [], st => st
  | h :: rest, st => seedListingsGo rng per today rest (listingsForHost rng h today (List.range per) st)

def seedListings (rng : Rng) (per : Nat) (hosts : List User) (today : Int) (db : DB) :
    DB × List Listing × List String :=
  seedListingsGo rng per today hosts (db, [], ["Creating sample listings..."])

/-- The inner booking loop for one listing (lines 136-152 of `seed.py`):
with no guests available, log a warning and skip; otherwise create a
booking whose total price is the listing's price per night times the
number of nights. -/
def bookingsForListing (rng : Rng) (guests : List User) (today : Int) (k : Nat) (l : Listing) :
    List Nat → DB × List String → DB × List String
  | [], st => st
  | i :: rest, st =>
    let db := st.1
    let log := st.2
    if guests.isEmpty then
      let t := l.title
      bookingsForListing rng guests today k l rest
        (db, log ++ ["No guest users available to create booking for " ++ t])
    else
      let guest := choose guests User.dummy (rng.bguest k i)
      let check_in : Int := today + (randint 1 30 (rng.bcheckin k i) : Nat)
      let check_out : Int := check_in + (randint 2 7 (rng.bstay k i) : Nat)
      let total_price : ℚ := l.price_per_night * ((check_out - check_in : Int) : ℚ)
      let b : Booking :=
        { booking_id := db.nextId, property := l.listing_id, user := guest.id,
          check_in_date := check_in, check_out_date := check_out,
          total_price := total_price,
          status := choose (STATUS_CHOICES.map Prod.fst) "" (rng.bstatus k i),
          booked_at := today }
      let t := l.title
      let e := guest.email
      bookingsForListing rng guests today k l rest
        ({ db with bookings := db.bookings ++ [b], nextId := db.nextId + 1 },
         log ++ ["Created booking for " ++ t ++ " by " ++ e])

/-- The outer booking loop over the run's listings, threading the listing
index `k`. -/
def seedBookingsGo (rng : Rng) (per : Nat) (guests : List User) (today : Int) :
    Nat → List Listing → DB × List String → DB × List String
  | _, [], st => st
  | k, l :: rest, st =>
    seedBookingsGo rng per guests today (k + 1) rest
      (bookingsForListing rng guests today k l (List.range per) st)

def seedBookings (rng : Rng) (per : Nat) (listings : List Listing) (guests : List User)
    (today : Int) (db : DB) : DB × List String :=
  seedBookingsGo rng per guests today 0 listings (db, ["Creating sample bookings..."])

/-- The inner review loop for one listing (lines 157-175 of `seed.py`):
with no guests available, log a warning; otherwise pick a reviewer and
create the review only when that (listing, reviewer) pair has no review
yet, else log a skip. -/
def reviewsForListing (rng : Rng) (guests : List User) (today : Int) (k : Nat) (l : Listing) :
    List Nat → DB × List String → DB × List String
  | [], st => st
  | i :: rest, st =>
    let db := st.1
    let log := st.2
    if guests.isEmpty then
      let t := l.title
      reviewsForListing rng guests today k l rest
        (db, log ++ ["No guest users available to create review for " ++ t])
    else
      let reviewer := choose guests User.dummy (rng.rguest k i)
      if db.reviews.any (fun r => r.property == l.listing_id && r.user == reviewer.id) then
        let t := l.title
        let e := reviewer.email
        reviewsForListing rng guests today k l rest
          (db, log ++ ["User " ++ e ++ " already reviewed " ++ t ++ ", skipping."])
      else
        let rv : Review :=
          { review_id := db.nextId, property := l.listing_id, user := reviewer.id,
            rating := randint 1 5 (rng.rrating k i),
            comment := choose ["Great place!", "Highly recommended.", "Clean and cozy.",
              "Had a wonderful stay.", "Excellent value."] "" (rng.rcomment k i),
            created_at := today }
        let t := l.title
        let e := reviewer.email
        reviewsForListing rng guests today k l rest
          ({ db with reviews := db.reviews ++ [rv], nextId := db.nextId + 1 },
           log ++ ["Created review for " ++ t ++ " by " ++ e])

/-- The outer review loop over the run's listings. -/
def seedReviewsGo (rng : Rng) (per : Nat) (guests : List User) (today : Int) :
    Nat → List Listing → DB × List String → DB × List String
  | _, [], st => st
  | k, l :: rest, st =>
    seedReviewsGo rng per guests today (k + 1) rest
      (reviewsForListing rng guests today k l (List.range per) st)

def seedReviews (rng : Rng) (per : Nat) (listings : List Listing) (guests : List User)
    (today : Int) (db : DB) : DB × List String :=
  seedReviewsGo rng per guests today 0 listings (db, ["Creating sample reviews..."])

/-- The phases of `handle` after the optional clear phase: create users,
partition into hosts and guests, ensure a host, create listings, bookings
and reviews, and close with the completion message. -/
def afterClear (opts : Opts) (rng : Rng) (today : Int) (db : DB) : DB × List String :=
  let r1 := seedUsers rng opts.num_users db
  let db1 := r1.1
  let users := r1.2.1
  let hosts := users.filter (fun u => u.role == "host")
  let guests := users.filter (fun u => u.role == "guest")
  let r2 := ensureHost db1 users hosts
  let db2 := r2.1
  let hosts2 := r2.2.2.1
  let r3 := seedListings rng opts.num_listings_per_host hosts2 today db2
  let db3 := r3.1
  let listings := r3.2.1
  let r4 := seedBookings rng opts.num_bookings_per_listing listings guests today db3
  let r5 := seedReviews rng opts.num_reviews_per_listing listings guests today r4.1
  (r5.1, r1.2.2 ++ r2.2.2.2 ++ r3.2.2 ++ r4.2 ++ r5.2 ++
    ["Database seeding completed successfully!"])

/-- `Command.handle` of `seed.py`: optional clear phase, then the seeding
phases.  Returns the final database and the log of messages written. -/
def handle (opts : Opts) (rng : Rng) (today : Int) (db : DB) : DB × List String :=
  if opts.clear then
    let r := afterClear opts rng today (clearData db)
    (r.1, ["Starting database seeding...", "Clearing existing data...", "Existing data cleared."]
      ++ r.2)
  else
    let r := afterClear opts rng today db
    (r.1, ["Starting database seeding..."] ++ r.2)

/-- Cascade deletion of a listing.  Models the persistence layer's delete
of a `Listing` row under the `on_delete=models.CASCADE` declared on
`Booking.property` and `Review.property` in `models.py`: the listing's
bookings and reviews are deleted with it. -/
def deleteListing (db : DB) (lid : Nat) : DB :=
  { db with listings := db.listings.filter (fun l => l.listing_id != lid),
            bookings := db.bookings.filter (fun b => b.property != lid),
            reviews := db.reviews.filter (fun r => r.property != lid) }

/-- Review creation as guarded by the schema.  Models the persistence
layer's enforcement of the `unique_together = ('property', 'user')`
constraint declared on `Review.Meta` in `models.py`: a second review for
the same (listing, user) pair is rejected with an error. -/
def Review.createChecked (db : DB) (prop user rating : Nat) (comment : String) (today : Int) :
    Except String DB :=
  if db.reviews.any (fun r => r.property == prop && r.user == user) then
    Except.error "DuplicateReviewError"
  else
    let rv : Review :=
      { review_id := db.nextId, property := prop, user := user,
        rating := rating, comment := comment, created_at := today }
    Except.ok { db with reviews := db.reviews ++ [rv], nextId := db.nextId + 1 }

/-- Modelled from the spec: a later mutation of a listing by its owning
host ("not recomputed if listing price later changes").  The persistence
layer updates the listing row's price and refreshed `updated_at`
(`auto_now`) and touches no other table. -/
def setListingPrice (db : DB) (lid : Nat) (p : ℚ) (now : Int) : DB :=
  { db with listings := db.listings.map (fun l =>
      if l.listing_id == lid then { l with price_per_night := p, updated_at := now } else l) }

/-- At most one review per (listing, user) pair: no two rows of the review
table share their `property` and `user` values. -/
def reviewPairUnique (rs : List Review) : Prop :=
  List.Pairwise (fun a b => ¬(a.property = b.property ∧ a.user = b.user)) rs

/-- One serializer field as declared in `serializers.py`: its name,
whether it is read-only (declared `read_only` / listed in
`read_only_fields` / a `SerializerMethodField`) and whether it is
write-only (declared `write_only=True`). -/
structure FieldSpec where
  name : String
  readOnly : Bool
  writeOnly : Bool
deriving DecidableEq, Repr

/-- The names a write payload may set: every field that is not read-only
(the framework's rule for applying validated write data). -/
def writableNames (fs : List FieldSpec) : List String :=
  (fs.filter (fun f => !f.readOnly)).map (fun f => f.name)

/-- The names the read shape carries: every field that is not write-only
(the framework's rule for building the representation). -/
def readShapeNames (fs : List FieldSpec) : List String :=
  (fs.filter (fun f => !f.writeOnly)).map (fun f => f.name)

/-- Applying a write payload to a stored row under the framework's
semantics: a payload entry updates a field only when that field is
writable; everything else on the row is kept. -/
def applyPayload (fs : List FieldSpec) (row payload : List (String × α)) :
    List (String × α) :=
  row.map (fun kv =>
    match payload.lookup kv.1 with
    | some w => if (writableNames fs).contains kv.1 then (kv.1, w) else kv
    | none => kv)

/-- The read shape of a stored row under the framework's semantics: the
row restricted to the non-write-only fields. -/
def represent (fs : List FieldSpec) (row : List (String × α)) : List (String × α) :=
  row.filter (fun kv => (readShapeNames fs).contains kv.1)

/-- The field list of `ListingSerializer` (`Meta.fields` order), with
`listing_id`, `created_at`, `updated_at`, `host` read-only
(`read_only_fields` / nested read-only serializer), `reviews` a
`SerializerMethodField` (read-only), and `host_id` write-only. -/
def ListingSerializer.fieldSpecs : List FieldSpec :=
  [⟨"listing_id", true, false⟩,
   ⟨"host", true, false⟩,
   ⟨"host_id", false, true⟩,
   ⟨"title", false, false⟩,
   ⟨"description", false, false⟩,
   ⟨"address", false, false⟩,
   ⟨"city", false, false⟩,
   ⟨"country", false, false⟩,
   ⟨"price_per_night", false, false⟩,
   ⟨"property_type", false, false⟩,
   ⟨"num_bedrooms", false, false⟩,
   ⟨"num_bathrooms", false, false⟩,
   ⟨"max_guests", false, false⟩,
   ⟨"amenities", false, false⟩,
   ⟨"created_at", true, false⟩,
   ⟨"updated_at", true, false⟩,
   ⟨"reviews", true, false⟩]

/-- The field list of `BookingSerializer`: `booking_id`, `booked_at`,
`property` (a `SerializerMethodField`) and `user` (nested read-only) are
read-only; `property_id` and `user_id` are write-only. -/
def BookingSerializer.fieldSpecs : List FieldSpec :=
  [⟨"booking_id", true, false⟩,
   ⟨"property", true, false⟩,
   ⟨"user", true, false⟩,
   ⟨"check_in_date", false, false⟩,
   ⟨"check_out_date", false, false⟩,
   ⟨"total_price", false, false⟩,
   ⟨"status", false, false⟩,
   ⟨"booked_at", true, false⟩,
   ⟨"property_id", false, true⟩,
   ⟨"user_id", false, true⟩]

/-- The field list of `ReviewSerializer`: `review_id`, `created_at`,
`property` and `user` are read-only; `property_id` and `user_id` are
write-only. -/
def ReviewSerializer.fieldSpecs : List FieldSpec :=
  [⟨"review_id", true, false⟩,
   ⟨"property", true, false⟩,
   ⟨"user", true, false⟩,
   ⟨"rating", false, false⟩,
   ⟨"comment", false, false⟩,
   ⟨"created_at", true, false⟩,
   ⟨"property_id", false, true⟩,
   ⟨"user_id", false, true⟩]

/-- `ListingSerializer.get_reviews`: the listing's reviews
(`obj.reviews.all()`) ordered by `created_at` descending
(`order_by('-created_at')`). -/
def get_reviews (db : DB) (obj : Listing) : List Review :=
  List.insertionSort (fun a b => b.created_at ≤ a.created_at)
    (db.reviews.filter (fun r => r.property == obj.listing_id))

/-- A fixed oracle, used to run the generator on concrete inputs. -/
def rng0 : Rng :=
  { role := fun _ => 0, ltitle := fun _ => 0, ldesc1 := fun _ => 0, ldesc2 := fun _ => 0,
    laddr := fun _ => 0, lcity := fun _ => 0, lcountry := fun _ => 0, lprice := fun _ => 100,
    ltype := fun _ => 0, lbed := fun _ => 0, lbath := fun _ => 0, lguests := fun _ => 0,
    lamen := fun _ => 0, bguest := fun _ _ => 0, bcheckin := fun _ _ => 0, bstay := fun _ _ => 0,
    bstatus := fun _ _ => 0, rguest := fun _ _ => 0, rrating := fun _ _ => 0,
    rcomment := fun _ _ => 0 }

/-- An oracle whose role draws alternate guest, host, guest, host, ... -/
def rngAlt : Rng := { rng0 with role := fun i => i }

/-- An oracle whose role draws always pick host. -/
def rngHost : Rng := { rng0 with role := fun _ => 1 }

/-- Options of the C3 scenario: 2 users, 1 listing per host, 1 booking and
1 review per listing, no clear flag. -/
def opts0 : Opts :=
  { clear := false, num_users := 2, num_listings_per_host := 1,
    num_bookings_per_listing := 1, num_reviews_per_listing := 1 }

/-- Options with a single user, used for re-run scenarios. -/
def opts1 : Opts :=
  { clear := false, num_users := 1, num_listings_per_host := 1,
    num_bookings_per_listing := 1, num_reviews_per_listing := 1 }

/-! ### Frame lemmas for the seeding phases -/

theorem seedUsersGo_frame (rng : Rng) (is : List Nat) :
    ∀ db users log,
      (seedUsersGo rng is db users log).1.listings = db.listings ∧
      (seedUsersGo rng is db users log).1.bookings = db.bookings ∧
      (seedUsersGo rng is db users log).1.reviews = db.reviews := by
  induction is with
  | nil => intro db users log; exact ⟨rfl, rfl, rfl⟩
  | cons i rest ih =>
    intro db users log
    simp only [seedUsersGo]
    split
    · exact ih db _ _
    · exact ih _ _ _

theorem ensureHost_frame (db : DB) (users hosts : List User) :
    (ensureHost db users hosts).1.listings = db.listings ∧
    (ensureHost db users hosts).1.bookings = db.bookings ∧
    (ensureHost db users hosts).1.reviews = db.reviews := by
  simp only [ensureHost]
  split
  · exact ⟨rfl, rfl, rfl⟩
  · exact ⟨rfl, rfl, rfl⟩

theorem listingsForHost_frame (rng : Rng) (host : User) (today : Int) (is : List Nat) :
    ∀ st,
      (listingsForHost rng host today is st).1.users = st.1.users ∧
      (listingsForHost rng host today is st).1.bookings = st.1.bookings ∧
      (listingsForHost rng host today is st).1.reviews = st.1.reviews := by
  induction is with
  | nil => intro st; exact ⟨rfl, rfl, rfl⟩
  | cons i rest ih =>
    intro st
    simp only [listingsForHost]
    exact ih _

theorem seedListingsGo_frame (rng : Rng) (per : Nat) (today : Int) (hs : List User) :
    ∀ st,
      (seedListingsGo rng per today hs st).1.users = st.1.users ∧
      (seedListingsGo rng per today hs st).1.bookings = st.1.bookings ∧
      (seedListingsGo rng per today hs st).1.reviews = st.1.reviews := by
  induction hs with
  | nil => intro st; exact ⟨rfl, rfl, rfl⟩
  | cons h rest ih =>
    intro st
    simp only [seedListingsGo]
    have h1 := listingsForHost_frame rng h today (List.range per) st
    have h2 := ih (listingsForHost rng h today (List.range per) st)
    exact ⟨h2.1.trans h1.1, h2.2.1.trans h1.2.1, h2.2.2.trans h1.2.2⟩

theorem bookingsForListing_frame (rng : Rng) (guests : List User) (today : Int) (k : Nat)
    (l : Listing) (is : List Nat) :
    ∀ st,
      (bookingsForListing rng guests today k l is st).1.users = st.1.users ∧
      (bookingsForListing rng guests today k l is st).1.listings = st.1.listings ∧
      (bookingsForListing rng guests today k l is st).1.reviews = st.1.reviews := by
  induction is with
  | nil => intro st; exact ⟨rfl, rfl, rfl⟩
  | cons i rest ih =>
    intro st
    simp only [bookingsForListing]
    split
    · exact ih _
    · exact ih _

theorem seedBookingsGo_frame (rng : Rng) (per : Nat) (guests : List User) (today : Int) :
    ∀ ls k st,
      (seedBookingsGo rng per guests today k ls st).1.users = st.1.users ∧
      (seedBookingsGo rng per guests today k ls st).1.listings = st.1.listings ∧
      (seedBookingsGo rng per guests today k ls st).1.reviews = st.1.reviews := by
  intro ls
  induction ls with
  | nil => intro k st; exact ⟨rfl, rfl, rfl⟩
  | cons l rest ih =>
    intro k st
    simp only [seedBookingsGo]
    have h1 := bookingsForListing_frame rng guests today k l (List.range per) st
    have h2 := ih (k + 1) (bookingsForListing rng guests today k l (List.range per) st)
    exact ⟨h2.1.trans h1.1, h2.2.1.trans h1.2.1, h2.2.2.trans h1.2.2⟩

theorem reviewsForListing_frame (rng : Rng) (guests : List User) (today : Int) (k : Nat)
    (l : Listing) (is : List Nat) :
    ∀ st,
      (reviewsForListing rng guests today k l is st).1.users = st.1.users ∧
      (reviewsForListing rng guests today k l is st).1.listings = st.1.listings ∧
      (reviewsForListing rng guests today k l is st).1.bookings = st.1.bookings := by
  induction is with
  | nil => intro st; exact ⟨rfl, rfl, rfl⟩
  | cons i rest ih =>
    intro st
    simp only [reviewsForListing]
    split
    · exact ih _
    · split
      · exact ih _
      · exact ih _

theorem seedReviewsGo_frame (rng : Rng) (per : Nat) (guests : List User) (today : Int) :
    ∀ ls k st,
      (seedReviewsGo rng per guests today k ls st).1.users = st.1.users ∧
      (seedReviewsGo rng per guests today k ls st).1.listings = st.1.listings ∧
      (seedReviewsGo rng per guests today k ls st).1.bookings = st.1.bookings := by
  intro ls
  induction ls with
  | nil => intro k st; exact ⟨rfl, rfl, rfl⟩
  | cons l rest ih =>
    intro k st
    simp only [seedReviewsGo]
    have h1 := reviewsForListing_frame rng guests today k l (List.range per) st
    have h2 := ih (k + 1) (reviewsForListing rng guests today k l (List.range per) st)
    exact ⟨h2.1.trans h1.1, h2.2.1.trans h1.2.1, h2.2.2.trans h1.2.2⟩

/-! ### Where created rows come from -/

theorem listingsForHost_mem (rng : Rng) (host : User) (today : Int) (is : List Nat) :
    ∀ st l, l ∈ (listingsForHost rng host today is st).1.listings →
      l ∈ st.1.listings ∨ l.host = host.id := by
  induction is with
  | nil => intro st l hl; exact Or.inl hl
  | cons i rest ih =>
    intro st l hl
    simp only [listingsForHost] at hl
    rcases ih _ l hl with h | h
    · simp only [List.mem_append, List.mem_singleton] at h
      rcases h with h | h
      · exact Or.inl h
      · subst h; exact Or.inr rfl
    · exact Or.inr h

theorem seedListingsGo_mem (rng : Rng) (per : Nat) (today : Int) (hs : List User) :
    ∀ st l, l ∈ (seedListingsGo rng per today hs st).1.listings →
      l ∈ st.1.listings ∨ ∃ h ∈ hs, l.host = h.id := by
  induction hs with
  | nil => intro st l hl; exact Or.inl hl
  | cons h rest ih =>
    intro st l hl
    simp only [seedListingsGo] at hl
    rcases ih _ l hl with h1 | h1
    · rcases listingsForHost_mem rng h today (List.range per) st l h1 with h2 | h2
      · exact Or.inl h2
      · exact Or.inr ⟨h, List.mem_cons_self h rest, h2⟩
    · rcases h1 with ⟨u, hu, he⟩
      exact Or.inr ⟨u, List.mem_cons_of_mem h hu, he⟩

theorem listingsForHost_created_sub (rng : Rng) (host : User) (today : Int) (is : List Nat) :
    ∀ st, (∀ l ∈ st.2.1, l ∈ st.1.listings) →
      ∀ l ∈ (listingsForHost rng host today is st).2.1,
        l ∈ (listingsForHost rng host today is st).1.listings := by
  induction is with
  | nil => intro st h; exact h
  | cons i rest ih =>
    intro st h
    simp only [listingsForHost]
    apply ih
    intro l hl
    simp only [List.mem_append, List.mem_singleton] at hl ⊢
    rcases hl with hl | hl
    · exact Or.inl (h l hl)
    · exact Or.inr hl

theorem seedListingsGo_created_sub (rng : Rng) (per : Nat) (today : Int) (hs : List User) :
    ∀ st, (∀ l ∈ st.2.1, l ∈ st.1.listings) →
      ∀ l ∈ (seedListingsGo rng per today hs st).2.1,
        l ∈ (seedListingsGo rng per today hs st).1.listings := by
  induction hs with
  | nil => intro st h; exact h
  | cons h rest ih =>
    intro st hsub
    simp only [seedListingsGo]
    exact ih _ (listingsForHost_created_sub rng h today (List.range per) st hsub)

theorem bookingsForListing_mem (rng : Rng) (guests : List User) (today : Int) (k : Nat)
    (l : Listing) (is : List Nat) :
    ∀ st b, b ∈ (bookingsForListing rng guests today k l is st).1.bookings →
      b ∈ st.1.bookings ∨
        (b.property = l.listing_id ∧
          b.total_price = ((b.check_out_date - b.check_in_date : ℤ) : ℚ) * l.price_per_night) := by
  induction is with
  | nil => intro st b hb; exact Or.inl hb
  | cons i rest ih =>
    intro st b hb
    simp only [bookingsForListing] at hb
    split at hb
    · have h2 := ih _ b hb
      exact h2
    · rcases ih _ b hb with h | h
      · simp only [List.mem_append, List.mem_singleton] at h
        rcases h with h | h
        · exact Or.inl h
        · subst h
          refine Or.inr ⟨rfl, ?_⟩
          simp only [add_sub_cancel_left]
          exact mul_comm l.price_per_night _
      · exact Or.inr h

theorem seedBookingsGo_mem (rng : Rng) (per : Nat) (guests : List User) (today : Int) :
    ∀ ls k st b, b ∈ (seedBookingsGo rng per guests today k ls st).1.bookings →
      b ∈ st.1.bookings ∨
        ∃ l ∈ ls, b.property = l.listing_id ∧
          b.total_price = ((b.check_out_date - b.check_in_date : ℤ) : ℚ) * l.price_per_night := by
  intro ls
  induction ls with
  | nil => intro k st b hb; exact Or.inl hb
  | cons l rest ih =>
    intro k st b hb
    simp only [seedBookingsGo] at hb
    rcases ih (k + 1) _ b hb with h | h
    · rcases bookingsForListing_mem rng guests today k l (List.range per) st b h with h2 | h2
      · exact Or.inl h2
      · exact Or.inr ⟨l, List.mem_cons_self l rest, h2⟩
    · rcases h with ⟨l', hl', hp⟩
      exact Or.inr ⟨l', List.mem_cons_of_mem l hl', hp⟩

/-! ### Review pair uniqueness through the review phase -/

theorem reviewsForListing_pairUnique (rng : Rng) (guests : List User) (today : Int) (k : Nat)
    (l : Listing) (is : List Nat) :
    ∀ st, reviewPairUnique st.1.reviews →
      reviewPairUnique (reviewsForListing rng guests today k l is st).1.reviews := by
  induction is with
  | nil => intro st h; exact h
  | cons i rest ih =>
    intro st h
    simp only [reviewsForListing]
    split
    · exact ih _ h
    · split
      · exact ih _ h
      · apply ih
        rename_i hguests hnone
        simp only [reviewPairUnique, List.pairwise_append, List.pairwise_cons] at *
        refine ⟨h, by simp, ?_⟩
        intro a ha b hb
        simp only [List.mem_singleton] at hb
        subst hb
        simp only [List.any_eq_true, Bool.and_eq_true, beq_iff_eq] at hnone
        intro hcon
        exact hnone ⟨a, ha, hcon.1, hcon.2⟩

theorem seedReviewsGo_pairUnique (rng : Rng) (per : Nat) (guests : List User) (today : Int) :
    ∀ ls k st, reviewPairUnique st.1.reviews →
      reviewPairUnique (seedReviewsGo rng per guests today k ls st).1.reviews := by
  intro ls
  induction ls with
  | nil => intro k st h; exact h
  | cons l rest ih =>
    intro k st h
    simp only [seedReviewsGo]
    exact ih (k + 1) _ (reviewsForListing_pairUnique rng guests today k l (List.range per) st h)

/-! ### Log growth and the no-guest warnings -/

/-- A list extended twice is an extension: helper for the log lemmas. -/
theorem exists_append_shift {α : Type} {l base m ext : List α} (h : l = (base ++ m) ++ ext) :
    ∃ e, l = base ++ e := ⟨m ++ ext, by rw [h, List.append_assoc]⟩

theorem bookingsForListing_log_mono (rng : Rng) (guests : List User) (today : Int) (k : Nat)
    (l : Listing) (is : List Nat) :
    ∀ st, ∃ ext, (bookingsForListing rng guests today k l is st).2 = st.2 ++ ext := by
  induction is with
  | nil => intro st; exact ⟨[], (List.append_nil _).symm⟩
  | cons i rest ih =>
    intro st
    simp only [bookingsForListing]
    split
    · rcases ih (st.1, st.2 ++ ["No guest users available to create booking for " ++ l.title])
        with ⟨ext, hext⟩
      exact exists_append_shift hext
    · rcases ih _ with ⟨ext, hext⟩
      exact exists_append_shift hext

theorem seedBookingsGo_log_mono (rng : Rng) (per : Nat) (guests : List User) (today : Int) :
    ∀ ls k st, ∃ ext, (seedBookingsGo rng per guests today k ls st).2 = st.2 ++ ext := by
  intro ls
  induction ls with
  | nil => intro k st; exact ⟨[], (List.append_nil _).symm⟩
  | cons l rest ih =>
    intro k st
    simp only [seedBookingsGo]
    rcases bookingsForListing_log_mono rng guests today k l (List.range per) st with ⟨e1, he1⟩
    rcases ih (k + 1) (bookingsForListing rng guests today k l (List.range per) st) with ⟨e2, he2⟩
    rw [he1] at he2
    exact exists_append_shift he2

theorem reviewsForListing_log_mono (rng : Rng) (guests : List User) (today : Int) (k : Nat)
    (l : Listing) (is : List Nat) :
    ∀ st, ∃ ext, (reviewsForListing rng guests today k l is st).2 = st.2 ++ ext := by
  induction is with
  | nil => intro st; exact ⟨[], (List.append_nil _).symm⟩
  | cons i rest ih =>
    intro st
    simp only [reviewsForListing]
    split
    · rcases ih (st.1, st.2 ++ ["No guest users available to create review for " ++ l.title])
        with ⟨ext, hext⟩
      exact exists_append_shift hext
    · split
      · rcases ih _ with ⟨ext, hext⟩
        exact exists_append_shift hext
      · rcases ih _ with ⟨ext, hext⟩
        exact exists_append_shift hext

theorem seedReviewsGo_log_mono (rng : Rng) (per : Nat) (guests : List User) (today : Int) :
    ∀ ls k st, ∃ ext, (seedReviewsGo rng per guests today k ls st).2 = st.2 ++ ext := by
  intro ls
  induction ls with
  | nil => intro k st; exact ⟨[], (List.append_nil _).symm⟩
  | cons l rest ih =>
    intro k st
    simp only [seedReviewsGo]
    rcases reviewsForListing_log_mono rng guests today k l (List.range per) st with ⟨e1, he1⟩
    rcases ih (k + 1) (reviewsForListing rng guests today k l (List.range per) st) with ⟨e2, he2⟩
    rw [he1] at he2
    exact exists_append_shift he2

theorem bookingsForListing_noGuests (rng : Rng) (today : Int) (k : Nat) (l : Listing)
    (is : List Nat) :
    ∀ st, (bookingsForListing rng [] today k l is st).1 = st.1 := by
  induction is with
  | nil => intro st; rfl
  | cons i rest ih =>
    intro st
    simp only [bookingsForListing, List.isEmpty_nil, if_true]
    exact ih _

theorem seedBookingsGo_noGuests (rng : Rng) (per : Nat) (today : Int) :
    ∀ ls k st, (seedBookingsGo rng per [] today k ls st).1 = st.1 := by
  intro ls
  induction ls with
  | nil => intro k st; rfl
  | cons l rest ih =>
    intro k st
    simp only [seedBookingsGo]
    rw [ih (k + 1) _]
    exact bookingsForListing_noGuests rng today k l (List.range per) st

theorem reviewsForListing_noGuests (rng : Rng) (today : Int) (k : Nat) (l : Listing)
    (is : List Nat) :
    ∀ st, (reviewsForListing rng [] today k l is st).1 = st.1 := by
  induction is with
  | nil => intro st; rfl
  | cons i rest ih =>
    intro st
    simp only [reviewsForListing, List.isEmpty_nil, if_true]
    exact ih _

theorem seedReviewsGo_noGuests (rng : Rng) (per : Nat) (today : Int) :
    ∀ ls k st, (seedReviewsGo rng per [] today k ls st).1 = st.1 := by
  intro ls
  induction ls with
  | nil => intro k st; rfl
  | cons l rest ih =>
    intro k st
    simp only [seedReviewsGo]
    rw [ih (k + 1) _]
    exact reviewsForListing_noGuests rng today k l (List.range per) st

theorem bookingsForListing_noGuests_warn (rng : Rng) (today : Int) (k : Nat) (l : Listing)
    (is : List Nat) (hne : is ≠ []) :
    ∀ st, ("No guest users available to create booking for " ++ l.title) ∈
      (bookingsForListing rng [] today k l is st).2 := by
  cases is with
  | nil => exact absurd rfl hne
  | cons i rest =>
    intro st
    simp only [bookingsForListing, List.isEmpty_nil, if_true]
    rcases bookingsForListing_log_mono rng [] today k l rest
      (st.1, st.2 ++ ["No guest users available to create booking for " ++ l.title])
      with ⟨ext, hext⟩
    rw [hext]
    simp

theorem seedBookingsGo_noGuests_warn (rng : Rng) (per : Nat) (today : Int) (hper : 0 < per) :
    ∀ ls k st l, l ∈ ls →
      ("No guest users available to create booking for " ++ l.title) ∈
        (seedBookingsGo rng per [] today k ls st).2 := by
  intro ls
  induction ls with
  | nil => intro k st l hl; exact absurd hl (List.not_mem_nil l)
  | cons l0 rest ih =>
    intro k st l hl
    simp only [seedBookingsGo]
    rcases List.mem_cons.mp hl with h | h
    · subst h
      rcases seedBookingsGo_log_mono rng per [] today rest (k + 1)
        (bookingsForListing rng [] today k l (List.range per) st) with ⟨ext, hext⟩
      rw [hext]
      apply List.mem_append_left
      exact bookingsForListing_noGuests_warn rng today k l (List.range per)
        (by simpa using List.range_eq_nil.not.mpr (Nat.pos_iff_ne_zero.mp hper)) st
    · exact ih (k + 1) _ l h

theorem reviewsForListing_noGuests_warn (rng : Rng) (today : Int) (k : Nat) (l : Listing)
    (is : List Nat) (hne : is ≠ []) :
    ∀ st, ("No guest users available to create review for " ++ l.title) ∈
      (reviewsForListing rng [] today k l is st).2 := by
  cases is with
  | nil => exact absurd rfl hne
  | cons i rest =>
    intro st
    simp only [reviewsForListing, List.isEmpty_nil, if_true]
    rcases reviewsForListing_log_mono rng [] today k l rest
      (st.1, st.2 ++ ["No guest users available to create review for " ++ l.title])
      with ⟨ext, hext⟩
    rw [hext]
    simp

theorem seedReviewsGo_noGuests_warn (rng : Rng) (per : Nat) (today : Int) (hper : 0 < per) :
    ∀ ls k st l, l ∈ ls →
      ("No guest users available to create review for " ++ l.title) ∈
        (seedReviewsGo rng per [] today k ls st).2 := by
  intro ls
  induction ls with
  | nil => intro k st l hl; exact absurd hl (List.not_mem_nil l)
  | cons l0 rest ih =>
    intro k st l hl
    simp only [seedReviewsGo]
    rcases List.mem_cons.mp hl with h | h
    · subst h
      rcases seedReviewsGo_log_mono rng per [] today rest (k + 1)
        (reviewsForListing rng [] today k l (List.range per) st) with ⟨ext, hext⟩
      rw [hext]
      apply List.mem_append_left
      exact reviewsForListing_noGuests_warn rng today k l (List.range per)
        (by simpa using List.range_eq_nil.not.mpr (Nat.pos_iff_ne_zero.mp hper)) st
    · exact ih (k + 1) _ l h

/-! ### The user phase: reuse, growth, and membership -/

theorem seedUsersGo_reuse (rng : Rng) (is : List Nat) :
    ∀ db users log,
      (∀ i ∈ is, db.users.any (fun u => u.email == "user" ++ toString i ++ "@example.com") = true) →
      (seedUsersGo rng is db users log).1 = db := by
  induction is with
  | nil => intro db users log _; rfl
  | cons i rest ih =>
    intro db users log h
    have hi := h i (List.mem_cons_self i rest)
    simp only [seedUsersGo, hi, if_true]
    exact ih db _ _ (fun j hj => h j (List.mem_cons_of_mem i hj))

theorem seedUsersGo_users_grow (rng : Rng) (is : List Nat) :
    ∀ db users log, ∃ new, (seedUsersGo rng is db users log).1.users = db.users ++ new := by
  induction is with
  | nil => intro db users log; exact ⟨[], (List.append_nil _).symm⟩
  | cons i rest ih =>
    intro db users log
    simp only [seedUsersGo]
    split
    · exact ih db _ _
    · rcases ih _ _ _ with ⟨new, hnew⟩
      exact exists_append_shift hnew

theorem ensureHost_users_grow (db : DB) (users hosts : List User) :
    ∃ new, (ensureHost db users hosts).1.users = db.users ++ new := by
  simp only [ensureHost]
  split
  · exact ⟨_, rfl⟩
  · exact ⟨[], (List.append_nil _).symm⟩

theorem seedUsersGo_picked_mem (rng : Rng) (is : List Nat) :
    ∀ db users log, (∀ u ∈ users, u ∈ db.users) →
      ∀ u ∈ (seedUsersGo rng is db users log).2.1,
        u ∈ (seedUsersGo rng is db users log).1.users := by
  induction is with
  | nil =>
    intro db users log h u hu
    rcases seedUsersGo_users_grow rng [] db users log with ⟨new, hnew⟩
    rw [hnew]
    exact List.mem_append_left _ (h u hu)
  | cons i rest ih =>
    intro db users log h
    simp only [seedUsersGo]
    split
    · rename_i hex
      apply ih
      intro u hu
      rcases List.mem_append.mp hu with h1 | h1
      · exact h u h1
      · rw [List.mem_singleton] at h1
        subst h1
        have hex2 : ∃ v ∈ db.users, (fun u => u.email == "user" ++ toString i ++ "@example.com") v = true := by
          simpa [List.any_eq_true] using hex
        have h2 : (db.users.find? (fun u => u.email == "user" ++ toString i ++ "@example.com")).isSome = true :=
          List.find?_isSome.mpr hex2
        cases hfind : db.users.find? (fun u => u.email == "user" ++ toString i ++ "@example.com") with
        | none => rw [hfind] at h2; simp at h2
        | some w =>
          simp only [Option.getD_some]
          exact List.mem_of_find?_eq_some hfind
    · apply ih
      intro u hu
      rcases List.mem_append.mp hu with h1 | h1
      · exact List.mem_append_left _ (h u h1)
      · rw [List.mem_singleton] at h1
        subst h1
        exact List.mem_append_right _ (List.mem_singleton.mpr rfl)

theorem ensureHost_hosts_mem (db : DB) (users hosts : List User)
    (h : ∀ u ∈ hosts, u ∈ db.users) :
    ∀ u ∈ (ensureHost db users hosts).2.2.1, u ∈ (ensureHost db users hosts).1.users := by
  simp only [ensureHost]
  split
  · intro u hu
    rcases List.mem_append.mp hu with h1 | h1
    · exact List.mem_append_left _ (h u h1)
    · rw [List.mem_singleton] at h1
      subst h1
      exact List.mem_append_right _ (List.mem_singleton.mpr rfl)
  · exact h

theorem ensureHost_hosts_role (db : DB) (users hosts : List User)
    (h : ∀ u ∈ hosts, u.role = "host") :
    ∀ u ∈ (ensureHost db users hosts).2.2.1, u.role = "host" := by
  simp only [ensureHost]
  split
  · intro u hu
    rcases List.mem_append.mp hu with h1 | h1
    · exact h u h1
    · rw [List.mem_singleton] at h1
      subst h1
      rfl
  · exact h

theorem ensureHost_hosts_nonempty (db : DB) (users hosts : List User)
    (h : hosts ≠ []) : (ensureHost db users hosts) = (db, users, hosts, []) := by
  simp only [ensureHost]
  rw [if_neg]
  simp [List.isEmpty_iff, h]

/-! ### Representation mapper semantics -/

theorem lookup_applyPayload {α : Type} (fs : List FieldSpec) (k : String)
    (h : (writableNames fs).contains k = false) :
    ∀ (row payload : List (String × α)),
      (applyPayload fs row payload).lookup k = row.lookup k := by
  intro row payload
  induction row with
  | nil => rfl
  | cons kv rest ih =>
    simp only [applyPayload, List.map_cons] at *
    cases hpl : payload.lookup kv.1 with
    | none =>
      simp only [List.lookup, hpl]
      cases hbe : k == kv.1 with
      | true => rfl
      | false => exact ih
    | some w =>
      cases hwr : (writableNames fs).contains kv.1 with
      | true =>
        simp only [List.lookup, hpl, hwr, if_true]
        cases hbe : k == kv.1 with
        | true =>
          have : k = kv.1 := eq_of_beq hbe
          rw [this] at h
          rw [h] at hwr
          cases hwr
        | false => exact ih
      | false =>
        simp only [List.lookup, hpl, hwr, if_false]
        cases hbe : k == kv.1 with
        | true => rfl
        | false => exact ih

theorem not_mem_represent {α : Type} (fs : List FieldSpec) (k : String)
    (h : (readShapeNames fs).contains k = false) :
    ∀ row : List (String × α), k ∉ (represent fs row).map Prod.fst := by
  intro row hk
  rcases List.mem_map.mp hk with ⟨kv, hkv, hfst⟩
  rcases List.mem_filter.mp hkv with ⟨_, hp⟩
  rw [hfst] at hp
  rw [h] at hp
  cases hp

/-- The relation ordering reviews most-recent first (`order_by('-created_at')`). -/
theorem reviewDescTotal : IsTotal Review (fun a b => b.created_at ≤ a.created_at) :=
  ⟨fun a b => le_total b.created_at a.created_at⟩

theorem reviewDescTrans : IsTrans Review (fun a b => b.created_at ≤ a.created_at) :=
  ⟨fun _ _ _ hab hbc => le_trans hbc hab⟩

/-! ### The claims -/

/-- C8: with the clear flag set, the generator deletes all Reviews, then
all Bookings, then all Listings (children before parents), then all
non-superuser Users; superusers are kept, and `handle` runs the seeding
phases on the cleared state. -/
theorem clear_phase_order_and_result (db : DB) :
    clearData db = deleteNonSuperusers (deleteAllListings (deleteAllBookings (deleteAllReviews db))) ∧
    (clearData db).reviews = [] ∧
    (clearData db).bookings = [] ∧
    (clearData db).listings = [] ∧
    (clearData db).users = db.users.filter (fun u => u.is_superuser) ∧
    (∀ u ∈ db.users, u.is_superuser = true → u ∈ (clearData db).users) ∧
    (∀ (opts : Opts) (rng : Rng) (today : Int), opts.clear = true →
      handle opts rng today db =
        ((afterClear opts rng today (clearData db)).1,
         ["Starting database seeding...", "Clearing existing data...", "Existing data cleared."] ++
           (afterClear opts rng today (clearData db)).2)) := by
  refine ⟨rfl, rfl, rfl, rfl, rfl, ?_, ?_⟩
  · intro u hu hsup
    simp only [clearData, deleteNonSuperusers, deleteAllListings, deleteAllBookings,
      deleteAllReviews]
    exact List.mem_filter.mpr ⟨hu, hsup⟩
  · intro opts rng today hclear
    simp only [handle, hclear, if_true]

/-- C8 witness: concrete run with the clear flag on a database holding a
superuser and a normal user. -/
theorem clear_phase_order_and_result_witness :
    (let uS : User :=
       { id := 10, username := "admin", email := "admin@example.com",
         password := "p", first_name := "A", last_name := "D", role := "host",
         is_superuser := true }
     let uN : User :=
       { id := 11, username := "n", email := "n@example.com",
         password := "p", first_name := "N", last_name := "N", role := "guest",
         is_superuser := false }
     let rv1 : Review :=
       { review_id := 1, property := 0, user := 11, rating := 3, comment := "",
         created_at := 0 }
     let dbC : DB :=
       { users := [uS, uN], listings := [], bookings := [], reviews := [rv1],
         nextId := 12 }
     let optsC : Opts :=
       { clear := true, num_users := 0, num_listings_per_host := 0,
         num_bookings_per_listing := 0, num_reviews_per_listing := 0 }
     uS ∈ (clearData dbC).users ∧
       handle optsC rng0 0 dbC =
         ((afterClear optsC rng0 0 (clearData dbC)).1,
          ["Starting database seeding...", "Clearing existing data...", "Existing data cleared."] ++
            (afterClear optsC rng0 0 (clearData dbC)).2)) := by
  refine ⟨?_, ?_⟩
  · exact (clear_phase_order_and_result _).2.2.2.2.2.1 _ (by decide) rfl
  · exact (clear_phase_order_and_result _).2.2.2.2.2.2 _ rng0 0 rfl

/-- C5: deleting a Listing cascades to its Bookings and Reviews: afterwards
no booking or review references the deleted listing, and if no reference
dangled before, none dangles after. -/
theorem deleteListing_cascade (db : DB) (lid : Nat)
    (hb : ∀ b ∈ db.bookings, ∃ l ∈ db.listings, l.listing_id = b.property)
    (hr : ∀ r ∈ db.reviews, ∃ l ∈ db.listings, l.listing_id = r.property) :
    (∀ b ∈ (deleteListing db lid).bookings, b.property ≠ lid ∧
      ∃ l ∈ (deleteListing db lid).listings, l.listing_id = b.property) ∧
    (∀ r ∈ (deleteListing db lid).reviews, r.property ≠ lid ∧
      ∃ l ∈ (deleteListing db lid).listings, l.listing_id = r.property) := by
  constructor
  · intro b hmem
    simp only [deleteListing, List.mem_filter, bne_iff_ne, ne_eq] at hmem
    refine ⟨hmem.2, ?_⟩
    rcases hb b hmem.1 with ⟨l, hl, hlid⟩
    refine ⟨l, ?_, hlid⟩
    simp only [deleteListing, List.mem_filter, bne_iff_ne, ne_eq]
    exact ⟨hl, by rw [hlid]; exact hmem.2⟩
  · intro r hmem
    simp only [deleteListing, List.mem_filter, bne_iff_ne, ne_eq] at hmem
    refine ⟨hmem.2, ?_⟩
    rcases hr r hmem.1 with ⟨l, hl, hlid⟩
    refine ⟨l, ?_, hlid⟩
    simp only [deleteListing, List.mem_filter, bne_iff_ne, ne_eq]
    exact ⟨hl, by rw [hlid]; exact hmem.2⟩

/-- C5 witness: a database with two listings where one has a booking and a
review; deleting the other listing leaves nothing dangling, deleting the
referenced one removes its booking and review. -/
theorem deleteListing_cascade_witness :
    (let l1 : Listing :=
       { listing_id := 1, host := 0, title := "t", description := "d",
         address := "a", city := "c", country := "u", price_per_night := 10,
         property_type := "room", num_bedrooms := 1, num_bathrooms := 1, max_guests := 2,
         amenities := "", created_at := 0, updated_at := 0 }
     let b1 : Booking :=
       { booking_id := 2, property := 1, user := 0, check_in_date := 0,
         check_out_date := 2, total_price := 20, status := "pending", booked_at := 0 }
     let rv1 : Review :=
       { review_id := 3, property := 1, user := 0, rating := 4, comment := "",
         created_at := 0 }
     let dbC : DB :=
       { users := [], listings := [l1], bookings := [b1], reviews := [rv1], nextId := 4 }
     (∀ b ∈ (deleteListing dbC 1).bookings, b.property ≠ 1 ∧
        ∃ l ∈ (deleteListing dbC 1).listings, l.listing_id = b.property) ∧
     (∀ r ∈ (deleteListing dbC 1).reviews, r.property ≠ 1 ∧
        ∃ l ∈ (deleteListing dbC 1).listings, l.listing_id = r.property)) :=
  deleteListing_cascade _ 1 (by decide) (by decide)

/-- C6: for every write payload, the identifiers, timestamps and nested
read-only projections are never applied to the stored row (silently
ignored), and the write-only foreign-key id fields `host_id`,
`property_id`, `user_id` never appear in any read shape. -/
theorem mapper_readonly_writeonly_frame :
    (∀ (α : Type) (row payload : List (String × α)),
      (applyPayload ListingSerializer.fieldSpecs row payload).lookup "listing_id" = row.lookup "listing_id" ∧
      (applyPayload ListingSerializer.fieldSpecs row payload).lookup "created_at" = row.lookup "created_at" ∧
      (applyPayload ListingSerializer.fieldSpecs row payload).lookup "updated_at" = row.lookup "updated_at" ∧
      (applyPayload ListingSerializer.fieldSpecs row payload).lookup "host" = row.lookup "host" ∧
      (applyPayload ListingSerializer.fieldSpecs row payload).lookup "reviews" = row.lookup "reviews") ∧
    (∀ (α : Type) (row payload : List (String × α)),
      (applyPayload BookingSerializer.fieldSpecs row payload).lookup "booking_id" = row.lookup "booking_id" ∧
      (applyPayload BookingSerializer.fieldSpecs row payload).lookup "booked_at" = row.lookup "booked_at" ∧
      (applyPayload BookingSerializer.fieldSpecs row payload).lookup "property" = row.lookup "property" ∧
      (applyPayload BookingSerializer.fieldSpecs row payload).lookup "user" = row.lookup "user") ∧
    (∀ (α : Type) (row payload : List (String × α)),
      (applyPayload ReviewSerializer.fieldSpecs row payload).lookup "review_id" = row.lookup "review_id" ∧
      (applyPayload ReviewSerializer.fieldSpecs row payload).lookup "created_at" = row.lookup "created_at" ∧
      (applyPayload ReviewSerializer.fieldSpecs row payload).lookup "property" = row.lookup "property" ∧
      (applyPayload ReviewSerializer.fieldSpecs row payload).lookup "user" = row.lookup "user") ∧
    (∀ (α : Type) (row : List (String × α)),
      "host_id" ∉ (represent ListingSerializer.fieldSpecs row).map Prod.fst) ∧
    (∀ (α : Type) (row : List (String × α)),
      "property_id" ∉ (represent BookingSerializer.fieldSpecs row).map Prod.fst ∧
      "user_id" ∉ (represent BookingSerializer.fieldSpecs row).map Prod.fst) ∧
    (∀ (α : Type) (row : List (String × α)),
      "property_id" ∉ (represent ReviewSerializer.fieldSpecs row).map Prod.fst ∧
      "user_id" ∉ (represent ReviewSerializer.fieldSpecs row).map Prod.fst) := by
  refine ⟨?_, ?_, ?_, ?_, ?_, ?_⟩
  · intro α row payload
    exact ⟨lookup_applyPayload _ _ (by decide) row payload,
      lookup_applyPayload _ _ (by decide) row payload,
      lookup_applyPayload _ _ (by decide) row payload,
      lookup_applyPayload _ _ (by decide) row payload,
      lookup_applyPayload _ _ (by decide) row payload⟩
  · intro α row payload
    exact ⟨lookup_applyPayload _ _ (by decide) row payload,
      lookup_applyPayload _ _ (by decide) row payload,
      lookup_applyPayload _ _ (by decide) row payload,
      lookup_applyPayload _ _ (by decide) row payload⟩
  · intro α row payload
    exact ⟨lookup_applyPayload _ _ (by decide) row payload,
      lookup_applyPayload _ _ (by decide) row payload,
      lookup_applyPayload _ _ (by decide) row payload,
      lookup_applyPayload _ _ (by decide) row payload⟩
  · intro α row
    exact not_mem_represent _ _ (by decide) row
  · intro α row
    exact ⟨not_mem_represent _ _ (by decide) row, not_mem_represent _ _ (by decide) row⟩
  · intro α row
    exact ⟨not_mem_represent _ _ (by decide) row, not_mem_represent _ _ (by decide) row⟩

/-- C7: the read shape of a Listing carries a `reviews` field holding
exactly that listing's reviews, ordered by `created_at` descending. -/
theorem listing_reviews_ordered_desc :
    ∀ (db : DB) (obj : Listing),
      (get_reviews db obj).Perm (db.reviews.filter (fun r => r.property == obj.listing_id)) ∧
      List.Sorted (fun a b => b.created_at ≤ a.created_at) (get_reviews db obj) ∧
      "reviews" ∈ readShapeNames ListingSerializer.fieldSpecs := by
  intro db obj
  haveI := reviewDescTotal
  haveI := reviewDescTrans
  exact ⟨List.perm_insertionSort _ _, List.sorted_insertionSort _ _, by decide⟩

/-! ### Composite lemmas about a whole run -/

theorem afterClear_reviews_pairUnique (opts : Opts) (rng : Rng) (today : Int) (db : DB)
    (h : reviewPairUnique db.reviews) :
    reviewPairUnique (afterClear opts rng today db).1.reviews := by
  simp only [afterClear, seedReviews]
  apply seedReviewsGo_pairUnique
  simp only [seedBookings]
  rw [(seedBookingsGo_frame rng _ _ today _ _ _).2.2]
  simp only [seedListings]
  rw [(seedListingsGo_frame rng _ today _ _).2.2]
  rw [(ensureHost_frame _ _ _).2.2]
  simp only [seedUsers]
  rw [(seedUsersGo_frame rng _ _ _ _).2.2]
  exact h

theorem afterClear_bookings_spec (opts : Opts) (rng : Rng) (today : Int) (db : DB) (b : Booking)
    (hb : b ∈ (afterClear opts rng today db).1.bookings) :
    b ∈ db.bookings ∨
      ∃ l ∈ (afterClear opts rng today db).1.listings, b.property = l.listing_id ∧
        b.total_price = ((b.check_out_date - b.check_in_date : ℤ) : ℚ) * l.price_per_night := by
  simp only [afterClear, seedReviews, seedBookings, seedListings, seedUsers] at hb ⊢
  rw [(seedReviewsGo_frame rng _ _ today _ _ _).2.2] at hb
  rcases seedBookingsGo_mem rng _ _ today _ _ _ b hb with h | h
  · left
    rw [(seedListingsGo_frame rng _ today _ _).2.1] at h
    rw [(ensureHost_frame _ _ _).2.1] at h
    rw [(seedUsersGo_frame rng _ _ _ _).2.1] at h
    exact h
  · right
    rcases h with ⟨l, hl, hprop⟩
    refine ⟨l, ?_, hprop⟩
    rw [(seedReviewsGo_frame rng _ _ today _ _ _).2.1,
      (seedBookingsGo_frame rng _ _ today _ _ _).2.1]
    exact seedListingsGo_created_sub rng _ today _ _ (by intro l' h'; cases h') l hl

theorem afterClear_listings_spec (opts : Opts) (rng : Rng) (today : Int) (db : DB) (l : Listing)
    (hl : l ∈ (afterClear opts rng today db).1.listings) :
    l ∈ db.listings ∨
      ∃ u ∈ (afterClear opts rng today db).1.users, u.id = l.host ∧ u.role = "host" := by
  simp only [afterClear, seedReviews, seedBookings, seedListings, seedUsers] at hl ⊢
  rw [(seedReviewsGo_frame rng _ _ today _ _ _).2.1,
    (seedBookingsGo_frame rng _ _ today _ _ _).2.1] at hl
  rcases seedListingsGo_mem rng _ today _ _ l hl with h | h
  · left
    rw [(ensureHost_frame _ _ _).1] at h
    rw [(seedUsersGo_frame rng _ _ _ _).1] at h
    exact h
  · right
    rcases h with ⟨u, hu, hid⟩
    have hrole : u.role = "host" := by
      refine ensureHost_hosts_role _ _ _ ?_ u hu
      intro v hv
      exact eq_of_beq (List.mem_filter.mp hv).2
    have humem : u ∈ (ensureHost (seedUsersGo rng (List.range opts.num_users) db []
        ["Creating " ++ toString opts.num_users ++ " sample users..."]).1
        (seedUsersGo rng (List.range opts.num_users) db []
          ["Creating " ++ toString opts.num_users ++ " sample users..."]).2.1
        ((seedUsersGo rng (List.range opts.num_users) db []
          ["Creating " ++ toString opts.num_users ++ " sample users..."]).2.1.filter
            (fun u => u.role == "host"))).1.users := by
      apply ensureHost_hosts_mem
      · intro v hv
        apply seedUsersGo_picked_mem rng _ db _ _ (by intro w hw; cases hw)
        exact (List.mem_filter.mp hv).1
      · exact hu
    refine ⟨u, ?_, hid.symm, hrole⟩
    rw [(seedReviewsGo_frame rng _ _ today _ _ _).1,
      (seedBookingsGo_frame rng _ _ today _ _ _).1,
      (seedListingsGo_frame rng _ today _ _).1]
    exact humem

/-- C1: at most one Review per (listing, user) pair: the schema rejects a
second review for a pair that already has one with an error, and any run of
the generator preserves pairwise uniqueness of (listing, user) over the
review table (the generator skips instead of inserting a duplicate). -/
theorem review_unique_per_pair :
    (∀ (db : DB) (prop user rating : Nat) (comment : String) (today : Int),
      db.reviews.any (fun r => r.property == prop && r.user == user) = true →
      Review.createChecked db prop user rating comment today =
        Except.error "DuplicateReviewError") ∧
    (∀ (opts : Opts) (rng : Rng) (today : Int) (db : DB),
      reviewPairUnique db.reviews → reviewPairUnique (handle opts rng today db).1.reviews) := by
  constructor
  · intro db prop user rating comment today h
    simp only [Review.createChecked, h, if_true]
  · intro opts rng today db h
    cases hc : opts.clear
    · simp only [handle, hc, Bool.false_eq_true, if_false]
      exact afterClear_reviews_pairUnique opts rng today db h
    · simp only [handle, hc, if_true]
      apply afterClear_reviews_pairUnique
      exact List.Pairwise.nil

/-- C1 witness: a duplicate (listing, user) creation is rejected on a
concrete database, and a concrete run keeps the review table duplicate
free. -/
theorem review_unique_per_pair_witness :
    (let rv : Review :=
       { review_id := 0, property := 7, user := 8, rating := 5, comment := "x", created_at := 0 }
     let dbR : DB := { users := [], listings := [], bookings := [], reviews := [rv], nextId := 1 }
     Review.createChecked dbR 7 8 3 "y" 0 = Except.error "DuplicateReviewError") ∧
    reviewPairUnique (handle opts0 rng0 0 emptyDB).1.reviews := by
  exact ⟨review_unique_per_pair.1 _ 7 8 3 "y" 0 (by decide),
    review_unique_per_pair.2 opts0 rng0 0 emptyDB List.Pairwise.nil⟩

/-- C2: every booking created by a run of the generator prices its stay as
nights times the price per night of the listing it references, and a later
listing price update rewrites no booking row. -/
theorem booking_total_price_nights (opts : Opts) (rng : Rng) (today : Int) (db0 : DB)
    (b : Booking)
    (hb : b ∈ (handle opts rng today db0).1.bookings)
    (hb0 : b ∉ (if opts.clear then clearData db0 else db0).bookings) :
    (∃ l ∈ (handle opts rng today db0).1.listings,
      b.property = l.listing_id ∧
      b.total_price = ((b.check_out_date - b.check_in_date : ℤ) : ℚ) * l.price_per_night) ∧
    (∀ (db : DB) (lid : Nat) (p : ℚ) (now : Int),
      (setListingPrice db lid p now).bookings = db.bookings) := by
  refine ⟨?_, fun db lid p now => rfl⟩
  cases hc : opts.clear
  · rw [hc] at hb0
    simp only [Bool.false_eq_true, if_false] at hb0
    simp only [handle, hc, Bool.false_eq_true, if_false] at hb ⊢
    rcases afterClear_bookings_spec opts rng today db0 b hb with h | h
    · exact absurd h hb0
    · exact h
  · rw [hc] at hb0
    simp only [if_true] at hb0
    simp only [handle, hc, if_true] at hb ⊢
    rcases afterClear_bookings_spec opts rng today (clearData db0) b hb with h | h
    · exact absurd h hb0
    · exact h

/-- C2 witness: the booking of a concrete run satisfies the pricing
equation against its listing. -/
theorem booking_total_price_nights_witness :
    (let b : Booking :=
       { booking_id := 4, property := 3, user := 0, check_in_date := 1, check_out_date := 3,
         total_price := (100 : ℚ) * ((2 : ℤ) : ℚ), status := "pending", booked_at := 0 }
     (∃ l ∈ (handle opts0 rng0 0 emptyDB).1.listings,
       b.property = l.listing_id ∧
       b.total_price = ((b.check_out_date - b.check_in_date : ℤ) : ℚ) * l.price_per_night) ∧
     (∀ (db : DB) (lid : Nat) (p : ℚ) (now : Int),
       (setListingPrice db lid p now).bookings = db.bookings)) :=
  booking_total_price_nights opts0 rng0 0 emptyDB _
    (by rw [show (handle opts0 rng0 0 emptyDB).1.bookings =
        [{ booking_id := 4, property := 3, user := 0, check_in_date := 1, check_out_date := 3,
           total_price := (100 : ℚ) * ((2 : ℤ) : ℚ), status := "pending", booked_at := 0 }]
        from rfl]
        exact List.mem_singleton.mpr rfl)
    (by decide)

/-- C10: every listing a run of the generator creates is owned by a user
whose role is host (drawn from the host partition or the synthesized
fallback host). -/
theorem seeded_listing_host_is_host (opts : Opts) (rng : Rng) (today : Int) (db0 : DB)
    (l : Listing)
    (hl : l ∈ (handle opts rng today db0).1.listings)
    (hl0 : l ∉ (if opts.clear then clearData db0 else db0).listings) :
    ∃ u ∈ (handle opts rng today db0).1.users, u.id = l.host ∧ u.role = "host" := by
  cases hc : opts.clear
  · rw [hc] at hl0
    simp only [Bool.false_eq_true, if_false] at hl0
    simp only [handle, hc, Bool.false_eq_true, if_false] at hl ⊢
    rcases afterClear_listings_spec opts rng today db0 l hl with h | h
    · exact absurd h hl0
    · exact h
  · rw [hc] at hl0
    simp only [if_true] at hl0
    simp only [handle, hc, if_true] at hl ⊢
    rcases afterClear_listings_spec opts rng today (clearData db0) l hl with h | h
    · exact absurd h hl0
    · exact h

/-- C10 witness: the listing of a concrete run is owned by the fallback
host, whose role is host. -/
theorem seeded_listing_host_is_host_witness :
    ∃ u ∈ (handle opts0 rng0 0 emptyDB).1.users,
      u.id = (((handle opts0 rng0 0 emptyDB).1.listings).getD 0 Listing.dummy).host ∧
      u.role = "host" :=
  seeded_listing_host_is_host opts0 rng0 0 emptyDB _ (by decide) (by decide)

/-- C4 counterexample: running the generator twice without the clear flag
and identical parameters can create a new User row.  With one user drawn
as guest both times, the first run creates user0 and the fallback host;
the second run reuses user0 but unconditionally creates the fallback host
again, adding a third User row carrying the already-existing email
auto_host@example.com. -/
theorem user_rerun_duplicate_counterexample :
    (handle opts1 rng0 0 emptyDB).1.users.length = 2 ∧
    (handle opts1 rng0 0 (handle opts1 rng0 0 emptyDB).1).1.users.length = 3 ∧
    ((handle opts1 rng0 0 (handle opts1 rng0 0 emptyDB).1).1.users.filter
      (fun u => u.email == "auto_host@example.com")).length = 2 := by
  refine ⟨by decide, by decide, by decide⟩

/-- C4 amended: a second run without the clear flag creates no User row
through the per-index user loop when every derived email already exists —
each such user is reused — and creates no User row at all provided the
reused users contain at least one host (so the fallback-host synthesis,
which runs unconditionally when they do not, is not triggered). -/
theorem user_layer_rerun_idempotent (opts : Opts) (rng : Rng) (today : Int) (db : DB)
    (hc : opts.clear = false)
    (he : ∀ i < opts.num_users,
      db.users.any (fun u => u.email == "user" ++ toString i ++ "@example.com") = true)
    (hh : (seedUsers rng opts.num_users db).2.1.filter (fun u => u.role == "host") ≠ []) :
    (handle opts rng today db).1.users = db.users := by
  have hdb1 : (seedUsers rng opts.num_users db).1 = db := by
    simp only [seedUsers]
    apply seedUsersGo_reuse
    intro i hi
    exact he i (List.mem_range.mp hi)
  simp only [handle, hc, Bool.false_eq_true, if_false]
  simp only [afterClear, seedReviews, seedBookings, seedListings]
  rw [(seedReviewsGo_frame _ _ _ _ _ _ _).1, (seedBookingsGo_frame _ _ _ _ _ _ _).1]
  rw [(seedListingsGo_frame _ _ _ _ _).1]
  rw [ensureHost_hosts_nonempty _ _ _ hh]
  rw [hdb1]

/-- C4 amended witness: rerunning on a database already holding user0 with
role host leaves the user table unchanged. -/
theorem user_layer_rerun_idempotent_witness :
    (let u0 : User :=
       { id := 0, username := "user0", email := "user0@example.com", password := "password123",
         first_name := "First0", last_name := "Last0", role := "host", is_superuser := false }
     let dbW : DB := { users := [u0], listings := [], bookings := [], reviews := [], nextId := 1 }
     (handle opts1 rng0 0 dbW).1.users = dbW.users) := by
  exact user_layer_rerun_idempotent opts1 rng0 0 _ rfl (by decide) (by decide)

/-- C9: when the role partition yields no guest users, the generator skips
every booking and review, logging a warning per listing for each, and still
runs to completion (the closing success message is logged); the booking and
review tables are left unchanged. -/
theorem no_guests_skip_nonfatal (opts : Opts) (rng : Rng) (today : Int) (db : DB)
    (hg : (seedUsers rng opts.num_users db).2.1.filter (fun u => u.role == "guest") = []) :
    (afterClear opts rng today db).1.bookings = db.bookings ∧
    (afterClear opts rng today db).1.reviews = db.reviews ∧
    "Database seeding completed successfully!" ∈ (afterClear opts rng today db).2 ∧
    (0 < opts.num_bookings_per_listing →
      ∀ l ∈ (seedListings rng opts.num_listings_per_host
          (ensureHost (seedUsers rng opts.num_users db).1 (seedUsers rng opts.num_users db).2.1
            ((seedUsers rng opts.num_users db).2.1.filter (fun u => u.role == "host"))).2.2.1
          today
          (ensureHost (seedUsers rng opts.num_users db).1 (seedUsers rng opts.num_users db).2.1
            ((seedUsers rng opts.num_users db).2.1.filter (fun u => u.role == "host"))).1).2.1,
        ("No guest users available to create booking for " ++ l.title) ∈
          (afterClear opts rng today db).2) ∧
    (0 < opts.num_reviews_per_listing →
      ∀ l ∈ (seedListings rng opts.num_listings_per_host
          (ensureHost (seedUsers rng opts.num_users db).1 (seedUsers rng opts.num_users db).2.1
            ((seedUsers rng opts.num_users db).2.1.filter (fun u => u.role == "host"))).2.2.1
          today
          (ensureHost (seedUsers rng opts.num_users db).1 (seedUsers rng opts.num_users db).2.1
            ((seedUsers rng opts.num_users db).2.1.filter (fun u => u.role == "host"))).1).2.1,
        ("No guest users available to create review for " ++ l.title) ∈
          (afterClear opts rng today db).2) := by
  refine ⟨?_, ?_, ?_, ?_, ?_⟩
  · simp only [afterClear, hg]
    simp only [seedReviews, seedBookings]
    rw [(seedReviewsGo_frame _ _ _ _ _ _ _).2.2.trans (by rw [seedBookingsGo_noGuests])]
    simp only [seedListings]
    rw [(seedListingsGo_frame _ _ _ _ _).2.1, (ensureHost_frame _ _ _).2.1]
    simp only [seedUsers]
    rw [(seedUsersGo_frame _ _ _ _ _).2.1]
  · simp only [afterClear, hg]
    simp only [seedReviews, seedBookings]
    rw [seedReviewsGo_noGuests, seedBookingsGo_noGuests]
    simp only [seedListings]
    rw [(seedListingsGo_frame _ _ _ _ _).2.2, (ensureHost_frame _ _ _).2.2]
    simp only [seedUsers]
    rw [(seedUsersGo_frame _ _ _ _ _).2.2]
  · simp only [afterClear]
    simp [List.mem_append]
  · intro hper l hl
    simp only [afterClear, hg]
    have hw := seedBookingsGo_noGuests_warn rng opts.num_bookings_per_listing today hper _ 0
      ((seedListings rng opts.num_listings_per_host
          (ensureHost (seedUsers rng opts.num_users db).1 (seedUsers rng opts.num_users db).2.1
            ((seedUsers rng opts.num_users db).2.1.filter (fun u => u.role == "host"))).2.2.1
          today
          (ensureHost (seedUsers rng opts.num_users db).1 (seedUsers rng opts.num_users db).2.1
            ((seedUsers rng opts.num_users db).2.1.filter (fun u => u.role == "host"))).1).1,
        ["Creating sample bookings..."]) l hl
    simp only [seedBookings]
    simp only [List.mem_append]
    left
    left
    right
    exact hw
  · intro hper l hl
    simp only [afterClear, hg]
    have hw := seedReviewsGo_noGuests_warn rng opts.num_reviews_per_listing today hper _ 0
      ((seedBookings rng opts.num_bookings_per_listing
          (seedListings rng opts.num_listings_per_host
            (ensureHost (seedUsers rng opts.num_users db).1 (seedUsers rng opts.num_users db).2.1
              ((seedUsers rng opts.num_users db).2.1.filter (fun u => u.role == "host"))).2.2.1
            today
            (ensureHost (seedUsers rng opts.num_users db).1 (seedUsers rng opts.num_users db).2.1
              ((seedUsers rng opts.num_users db).2.1.filter (fun u => u.role == "host"))).1).2.1
          [] today
          (seedListings rng opts.num_listings_per_host
            (ensureHost (seedUsers rng opts.num_users db).1 (seedUsers rng opts.num_users db).2.1
              ((seedUsers rng opts.num_users db).2.1.filter (fun u => u.role == "host"))).2.2.1
            today
            (ensureHost (seedUsers rng opts.num_users db).1 (seedUsers rng opts.num_users db).2.1
              ((seedUsers rng opts.num_users db).2.1.filter (fun u => u.role == "host"))).1).1).1,
        ["Creating sample reviews..."]) l hl
    simp only [seedReviews]
    simp only [List.mem_append]
    left
    right
    exact hw

/-- C9 witness: a run whose single user is drawn as host has no guests;
the bookings and reviews tables stay empty, the per-listing warnings are
logged, and the run completes. -/
theorem no_guests_skip_nonfatal_witness :
    ((afterClear opts1 rngHost 0 emptyDB).1.bookings = emptyDB.bookings) ∧
    ("Database seeding completed successfully!" ∈ (afterClear opts1 rngHost 0 emptyDB).2) := by
  exact ⟨(no_guests_skip_nonfatal opts1 rngHost 0 emptyDB (by decide)).1,
    (no_guests_skip_nonfatal opts1 rngHost 0 emptyDB (by decide)).2.2.1⟩

/-- C3: with two users both drawn as guests (so the role partition yields
zero hosts), the generator synthesizes exactly one fallback host before
listing generation, produces exactly one listing
(num_listings_per_host = 1), at least zero bookings and reviews, and runs
to completion. -/
theorem fallback_host_scenario (rng : Rng) (today : Int)
    (h0 : chooseRole rng 0 = "guest") (h1 : chooseRole rng 1 = "guest") :
    ((handle opts0 rng today emptyDB).1.users.filter
      (fun u => u.username == "auto_host")).length = 1 ∧
    ((handle opts0 rng today emptyDB).1.users.filter
      (fun u => u.role == "host")).length = 1 ∧
    (handle opts0 rng today emptyDB).1.listings.length = 1 ∧
    0 ≤ (handle opts0 rng today emptyDB).1.bookings.length ∧
    0 ≤ (handle opts0 rng today emptyDB).1.reviews.length ∧
    "Database seeding completed successfully!" ∈ (handle opts0 rng today emptyDB).2 := by
  have hseed : seedUsers rng 2 emptyDB =
      ({ users := [{ id := 0, username := "user0", email := "user0@example.com",
                     password := "password123", first_name := "First0", last_name := "Last0",
                     role := chooseRole rng 0, is_superuser := false },
                   { id := 1, username := "user1", email := "user1@example.com",
                     password := "password123", first_name := "First1", last_name := "Last1",
                     role := chooseRole rng 1, is_superuser := false }],
         listings := [], bookings := [], reviews := [], nextId := 2 },
       [{ id := 0, username := "user0", email := "user0@example.com",
          password := "password123", first_name := "First0", last_name := "Last0",
          role := chooseRole rng 0, is_superuser := false },
        { id := 1, username := "user1", email := "user1@example.com",
          password := "password123", first_name := "First1", last_name := "Last1",
          role := chooseRole rng 1, is_superuser := false }],
       ["Creating 2 sample users...",
        "Created user: user0@example.com (" ++ chooseRole rng 0 ++ ")",
        "Created user: user1@example.com (" ++ chooseRole rng 1 ++ ")"]) := rfl
  rw [h0, h1] at hseed
  have husers : (handle opts0 rng today emptyDB).1.users =
      [{ id := 0, username := "user0", email := "user0@example.com",
         password := "password123", first_name := "First0", last_name := "Last0",
         role := "guest", is_superuser := false },
       { id := 1, username := "user1", email := "user1@example.com",
         password := "password123", first_name := "First1", last_name := "Last1",
         role := "guest", is_superuser := false },
       { id := 2, username := "auto_host", email := "auto_host@example.com",
         password := "password123", first_name := "Auto", last_name := "Host",
         role := "host", is_superuser := false }] := by
    show (afterClear opts0 rng today emptyDB).1.users = _
    simp only [afterClear, seedReviews, seedBookings, seedListings]
    rw [(seedReviewsGo_frame _ _ _ _ _ _ _).1, (seedBookingsGo_frame _ _ _ _ _ _ _).1,
      (seedListingsGo_frame _ _ _ _ _).1]
    show (ensureHost (seedUsers rng 2 emptyDB).1 (seedUsers rng 2 emptyDB).2.1
      ((seedUsers rng 2 emptyDB).2.1.filter (fun u => u.role == "host"))).1.users = _
    rw [hseed]
    rfl
  have hlistings : (handle opts0 rng today emptyDB).1.listings =
      [mkListing rng 0
        { id := 2, username := "auto_host", email := "auto_host@example.com",
          password := "password123", first_name := "Auto", last_name := "Host",
          role := "host", is_superuser := false } 0 today 3] := by
    show (afterClear opts0 rng today emptyDB).1.listings = _
    simp only [afterClear, seedReviews, seedBookings, seedListings]
    rw [(seedReviewsGo_frame _ _ _ _ _ _ _).2.1, (seedBookingsGo_frame _ _ _ _ _ _ _).2.1]
    show (seedListingsGo rng 1 today
      (ensureHost (seedUsers rng 2 emptyDB).1 (seedUsers rng 2 emptyDB).2.1
        ((seedUsers rng 2 emptyDB).2.1.filter (fun u => u.role == "host"))).2.2.1
      ((ensureHost (seedUsers rng 2 emptyDB).1 (seedUsers rng 2 emptyDB).2.1
        ((seedUsers rng 2 emptyDB).2.1.filter (fun u => u.role == "host"))).1,
       [], ["Creating sample listings..."])).1.listings = _
    rw [hseed]
    rfl
  refine ⟨?_, ?_, ?_, Nat.zero_le _, Nat.zero_le _, ?_⟩
  · rw [husers]; rfl
  · rw [husers]; rfl
  · rw [hlistings]; rfl
  · show "Database seeding completed successfully!" ∈
      "Starting database seeding..." :: (afterClear opts0 rng today emptyDB).2
    simp only [afterClear]
    simp [List.mem_append]

/-- C3 witness: the all-zero oracle draws guest for both users. -/
theorem fallback_host_scenario_witness :
    ((handle opts0 rng0 0 emptyDB).1.users.filter
      (fun u => u.username == "auto_host")).length = 1 ∧
    ((handle opts0 rng0 0 emptyDB).1.users.filter
      (fun u => u.role == "host")).length = 1 ∧
    (handle opts0 rng0 0 emptyDB).1.listings.length = 1 ∧
    0 ≤ (handle opts0 rng0 0 emptyDB).1.bookings.length ∧
    0 ≤ (handle opts0 rng0 0 emptyDB).1.reviews.length ∧
    "Database seeding completed successfully!" ∈ (handle opts0 rng0 0 emptyDB).2 :=
  fallback_host_scenario rng0 0 (by decide) (by decide)
